import Mathlib

/-!
Verification development for the slot-booking service
(`backend/routes/slots.js` and the `Slot` mongoose schema).

The JavaScript source is shallowly embedded:

* JavaScript strings are Lean `String`s (`List Char` underneath);
  `String.prototype.split` with a one-character separator, `parseInt`,
  `String.prototype.trim`, `String.prototype.padStart` and number
  stringification are modelled explicitly below.
* An ECMAScript `Date` value is modelled by its UTC civil fields
  (`year`, `month` (0-based, as in JS), `day`, `msInDay`): the engine's
  parser resolves any timezone offset of the textual input into these
  UTC fields before the handler code ever sees the value, so the
  handlers are verified over the already-parsed value.
* The mongoose document store is an association list from ids to slot
  documents; `save` runs the schema validation (the `match` regex on
  `startTime`/`endTime`, `required` on the trimmed `purpose`) and is
  rejected when validation fails, exactly as mongoose does.
* Each route handler becomes a pure function from the request and the
  store to an `HResult` holding the HTTP status code, the new store,
  the returned document (if any) and the trace of store accesses made.
-/

namespace BookTheSlot

/-- Whitespace recognizer used by the models of `trim` and `parseInt`. -/
def isWs (c : Char) : Bool :=
  c == ' ' || c == '\t' || c == '\n' || c == '\r'

/-- Model of `String.prototype.split` with a one-character separator,
restricted to the character-list level.  `splitCh sep cs` never returns
the empty list, and concatenating its pieces with `sep` gives back `cs`. -/
def splitCh (sep : Char) : List Char → List (List Char)
  | [] => [[]]
  | c :: cs =>
    if c = sep then [] :: splitCh sep cs
    else
      match splitCh sep cs with
      | [] => [[c]]
      | p :: ps => (c :: p) :: ps

/-- Model of `String.prototype.trim` (restricted to ASCII whitespace). -/
def jsTrim (s : String) : String :=
  String.mk (((s.data.dropWhile isWs).reverse.dropWhile isWs).reverse)

/-- Numeral body of the model of JavaScript number stringification:
fuelled version, most significant digit first.  The fuel is always
sufficient because `natToChars` passes `n + 1` and `n < 10 ^ (n + 1)`. -/
def natToCharsAux : Nat → Nat → List Char → List Char
  | 0, _, acc => acc
  | fuel + 1, n, acc =>
    let d := Char.ofNat (48 + n % 10)
    if n < 10 then d :: acc else natToCharsAux fuel (n / 10) (d :: acc)

/-- Decimal digits of a natural number, most significant first. -/
def natToChars (n : Nat) : List Char :=
  natToCharsAux (n + 1) n []

/-- Model of JavaScript number-to-string conversion for integral values
(as produced by the `${hour12}` template interpolation). -/
def jsNumToString (i : Int) : List Char :=
  if i < 0 then '-' :: natToChars i.natAbs else natToChars i.toNat

/-- Digit-sequence part of the model of `parseInt(s, 10)`: value of the
longest digit prefix, `none` when there is no digit (JS `NaN`). -/
def parseDigits (cs : List Char) : Option Nat :=
  match cs.takeWhile Char.isDigit with
  | [] => none
  | ds => some (ds.foldl (fun a c => a * 10 + (c.toNat - 48)) 0)

/-- Model of JavaScript `parseInt(s, 10)`: skip leading whitespace, an
optional sign, then read the longest digit prefix; `none` models `NaN`. -/
def parseIntJS (cs : List Char) : Option Int :=
  match cs.dropWhile isWs with
  | [] => none
  | c :: r =>
    if c = '-' then (parseDigits r).map (fun n => -(n : Int))
    else if c = '+' then (parseDigits r).map (fun n => (n : Int))
    else (parseDigits (c :: r)).map (fun n => (n : Int))

/-- Embedding of `convertTo12Hour` from `backend/routes/slots.js`:

    const [hours, minutes] = time24.split(':');
    const hourNum = parseInt(hours, 10);
    const period = hourNum >= 12 ? 'PM' : 'AM';
    const hour12 = hourNum % 12 || 12;
    return `${hour12}:${minutes} ${period}`;

When the input has no `:` at all, `minutes` is `undefined` and the
template renders it as the string "undefined"; when `parseInt` yields
`NaN`, the comparison `NaN >= 12` is false (period `AM`) and
`NaN % 12 || 12` is `12`, which the branches below reproduce.  JS `%`
truncates towards zero, hence `Int.tmod`. -/
def convertTo12Hour (time24 : String) : String :=
  let parts := splitCh ':' time24.data
  let hours : List Char := parts.headD []
  let minutes : List Char := (parts.drop 1).headD ("undefined".data)
  match parseIntJS hours with
  | some n =>
    let period : List Char := if 12 ≤ n then ['P', 'M'] else ['A', 'M']
    let hour12 : Int := if n.tmod 12 = 0 then 12 else n.tmod 12
    String.mk (jsNumToString hour12 ++ ':' :: (minutes ++ ' ' :: period))
  | none =>
    String.mk ('1' :: '2' :: ':' :: (minutes ++ ' ' :: ['A', 'M']))

example : convertTo12Hour "14:30" = "2:30 PM" := by decide
example : convertTo12Hour "15:00" = "3:00 PM" := by decide
example : convertTo12Hour "0:05" = "12:05 AM" := by decide
example : convertTo12Hour "12:00" = "12:00 PM" := by decide
example : convertTo12Hour "2:30 PM" = "2:30 PM AM" := by decide

/-- Model of an ECMAScript `Date` value by its UTC civil fields.  The
engine's parser resolves the timezone offset of a textual input into
these UTC fields, so a `JsDate` already is the UTC instant; `month` is
0-based as in JavaScript and `msInDay` is the UTC time of day in
milliseconds. -/
structure JsDate where
  year : Nat
  month : Nat
  day : Nat
  msInDay : Nat
deriving DecidableEq

/-- Model of `date.getUTCFullYear()`. -/
def JsDate.getUTCFullYear (d : JsDate) : Nat := d.year

/-- Model of `date.getUTCMonth()` (0-based). -/
def JsDate.getUTCMonth (d : JsDate) : Nat := d.month

/-- Model of `date.getUTCDate()` (day of month). -/
def JsDate.getUTCDate (d : JsDate) : Nat := d.day

/-- Model of `new Date(Date.UTC(y, m, d))`: the UTC midnight of the
given UTC calendar day. -/
def dateUTC (y m d : Nat) : JsDate := ⟨y, m, d, 0⟩

/-- Embedding of `normalizeDate` from `backend/routes/slots.js`:

    const date = new Date(dateStr);
    return new Date(Date.UTC(date.getUTCFullYear(), date.getUTCMonth(), date.getUTCDate()));

stated over the already-parsed `Date` value. -/
def normalizeDate (d : JsDate) : JsDate :=
  dateUTC d.getUTCFullYear d.getUTCMonth d.getUTCDate

/-- Model of `String.prototype.padStart(k, '0')` at the character-list
level (as used by `toISOString` for its fixed-width fields). -/
def padTo (k : Nat) (cs : List Char) : List Char :=
  List.replicate (k - cs.length) '0' ++ cs

/-- Model of `date.toISOString()` for dates with a 0–9999 year:
`YYYY-MM-DDTHH:mm:ss.sssZ`, all fields zero-padded, rendered from the
UTC civil fields. -/
def toISOString (d : JsDate) : String :=
  String.mk
    (padTo 4 (natToChars d.year) ++ '-' ::
      (padTo 2 (natToChars (d.month + 1)) ++ '-' ::
        (padTo 2 (natToChars d.day) ++ 'T' ::
          (padTo 2 (natToChars (d.msInDay / 3600000)) ++ ':' ::
            (padTo 2 (natToChars (d.msInDay / 60000 % 60)) ++ ':' ::
              (padTo 2 (natToChars (d.msInDay / 1000 % 60)) ++ '.' ::
                (padTo 3 (natToChars (d.msInDay % 1000)) ++ ['Z'])))))))

/-- Embedding of the date part of `slotSchema.methods.toJSON`:

    slot.date = this.date.toISOString().split('T')[0];
-/
def dateToJSON (d : JsDate) : String :=
  String.mk ((splitCh 'T' (toISOString d).data).headD [])

/-- The `YYYY-MM-DD` rendering of a UTC calendar day, written directly
from the spec's words ("the 'YYYY-MM-DD' string of that UTC calendar
day") to be compared with the code's `dateToJSON`; `m` is 0-based. -/
def ymdString (y m d : Nat) : String :=
  String.mk
    (padTo 4 (natToChars y) ++ '-' ::
      (padTo 2 (natToChars (m + 1)) ++ '-' :: padTo 2 (natToChars d)))

example : dateToJSON ⟨2024, 2, 1, 45296789⟩ = "2024-03-01" := by decide
example : toISOString ⟨2024, 2, 1, 45296789⟩ = "2024-03-01T12:34:56.789Z" := by decide

/-- Slot status, as the schema's `enum: ['available', 'booked']`. -/
inductive Status where
  | available
  | booked
deriving DecidableEq

/-- The `bookedBy` sub-record of the slot schema (field order as in the
schema; all string fields are declared `trim: true`). -/
structure BookedBy where
  name : String
  enrollment : String
  email : String
  bookedAt : Int
deriving DecidableEq

/-- A persisted `Slot` document, after the schema from the `Slot` model
file: `eventId` (reference, kept as a string id), `date`, the two time
strings, the trimmed `purpose`, the `status` enumeration, the optional
`bookedBy` sub-record and the `createdBy` reference. -/
structure Slot where
  eventId : String
  date : JsDate
  startTime : String
  endTime : String
  purpose : String
  status : Status
  bookedBy : Option BookedBy
  createdBy : String
deriving DecidableEq

/-- Tail of the 12-hour time pattern after the hour digits and the
colon: `([0-5][0-9]) ?([AP]M)` anchored at the end. -/
def matchTail (cs : List Char) : Bool :=
  match cs with
  | m1 :: m2 :: rest =>
    ('0' ≤ m1 && m1 ≤ '5') && m2.isDigit &&
      (match rest with
       | [' ', a, 'M'] => a == 'A' || a == 'P'
       | [a, 'M'] => a == 'A' || a == 'P'
       | _ => false)
  | _ => false

/-- Decider for the schema's time validation pattern
`^((1[0-2]|0?[1-9]):([0-5][0-9]) ?([AP]M))$`: the hour is `10`–`12`,
`01`–`09` or a single digit `1`–`9`, then colon, minutes, optional
space and the meridiem. -/
def match12h (s : String) : Bool :=
  match s.data with
  | '1' :: ':' :: rest => matchTail rest
  | '1' :: c :: ':' :: rest => ('0' ≤ c && c ≤ '2') && matchTail rest
  | '0' :: c :: ':' :: rest => ('1' ≤ c && c ≤ '9') && matchTail rest
  | c :: ':' :: rest => ('2' ≤ c && c ≤ '9') && matchTail rest
  | _ => false

example : match12h "2:30 PM" = true := by decide
example : match12h "12:00 AM" = true := by decide
example : match12h "12:00AM" = true := by decide
example : match12h "09:59 PM" = true := by decide
example : match12h "13:00 PM" = false := by decide
example : match12h "0:30 AM" = false := by decide
example : match12h "2:30 PM AM" = false := by decide
example : match12h "2:5 PM" = false := by decide

/-- Mongoose schema validation run by `save`: the `match` regex on
`startTime` and `endTime`, and `required` on `purpose` (which, being
trimmed, fails exactly on the empty string).  `eventId` and `date` are
non-optional in the embedding's types, and `status` is the enumeration
by construction. -/
def validateSlot (s : Slot) : Bool :=
  match12h s.startTime && match12h s.endTime && !(s.purpose == "")

/-- The document store: an association list from generated ids to slot
documents. -/
abbrev Store := List (Nat × Slot)

/-- Model of `Slot.findById`. -/
def findById (store : Store) (id : Nat) : Option Slot :=
  (store.find? (fun p => p.fst == id)).map (fun p => p.snd)

/-- Model of `slot.save()` for an existing document: replace the
document stored under `id`. -/
def setById (store : Store) (id : Nat) (s : Slot) : Store :=
  store.map (fun p => if p.fst == id then (p.fst, s) else p)

/-- One store access, recorded so that "never touches the store" is a
statement about an empty trace. -/
inductive Access where
  | eventFind (id : String)
  | slotFind (id : Nat)
  | slotSave (id : Nat)
deriving DecidableEq

/-- Result of one handler invocation: HTTP status code, the store after
the request, the slot document returned in the body (if the body is a
slot), and the trace of store accesses performed. -/
structure HResult where
  code : Nat
  store : Store
  body : Option Slot
  accesses : List Access
deriving DecidableEq

/-- JavaScript truthiness of an optional string body field: absent and
the empty string are falsy. -/
def truthyStr (o : Option String) : Bool :=
  match o with
  | none => false
  | some s => !(s == "")

/-- The raw `date` body field as the handler's truthiness check sees
it: absent, the (falsy) empty string, or a parseable date already
resolved by the engine to its UTC fields. -/
inductive DateInput where
  | emptyStr
  | val (d : JsDate)
deriving DecidableEq

/-- JavaScript truthiness of the optional `date` body field. -/
def truthyDate (o : Option DateInput) : Bool :=
  match o with
  | none => false
  | some DateInput.emptyStr => false
  | some (DateInput.val _) => true

/-- Payload of a `date` field that passed the truthiness check. -/
def dateVal (o : Option DateInput) : JsDate :=
  match o with
  | some (DateInput.val d) => d
  | _ => ⟨0, 0, 1, 0⟩

/-- Body of `POST /slots` (create). -/
structure CreateReq where
  eventId : Option String
  date : Option DateInput
  startTime : Option String
  endTime : Option String
  purpose : Option String
deriving DecidableEq

/-- Body of `PUT /slots/:id` (update). -/
structure UpdateReq where
  date : Option DateInput
  startTime : Option String
  endTime : Option String
  purpose : Option String
deriving DecidableEq

/-- Body of `POST /slots/:id/book`. -/
structure BookReq where
  name : Option String
  email : Option String
  enrollment : Option String
deriving DecidableEq

/-- Embedding of the `router.post('/')` create handler: reject with 400
when any body field is falsy; look the event up, 404 when absent;
normalize the date, convert both times, build the slot with status
`available` and the acting administrator as `createdBy`; `save` runs
the schema validation (500 on a validation error, as the handler's
catch-all maps any store error to 500).  `freshId` is the
store-generated id of the new document. -/
def createSlot (events : List String) (store : Store) (freshId : Nat)
    (adminId : String) (r : CreateReq) : HResult :=
  if !(truthyStr r.eventId && truthyDate r.date && truthyStr r.startTime &&
        truthyStr r.endTime && truthyStr r.purpose) then
    ⟨400, store, none, []⟩
  else
    let eventId := r.eventId.getD ""
    if !(events.contains eventId) then
      ⟨404, store, none, [Access.eventFind eventId]⟩
    else
      let date := normalizeDate (dateVal r.date)
      let startTime := convertTo12Hour (r.startTime.getD "")
      let endTime := convertTo12Hour (r.endTime.getD "")
      let slot : Slot :=
        ⟨eventId, date, startTime, endTime, jsTrim (r.purpose.getD ""),
          Status.available, none, adminId⟩
      if validateSlot slot then
        ⟨201, store ++ [(freshId, slot)], some slot,
          [Access.eventFind eventId, Access.slotSave freshId, Access.slotFind freshId]⟩
      else
        ⟨500, store, none, [Access.eventFind eventId]⟩

/-- The four guarded field assignments of the update handler:

    if (date) slot.date = normalizeDate(date);
    if (startTime) slot.startTime = convertTo12Hour(startTime);
    if (endTime) slot.endTime = convertTo12Hour(endTime);
    if (purpose) slot.purpose = purpose;

Each truthy body field overwrites the corresponding stored field
(with the schema's trim applied to `purpose` on assignment); falsy
(absent or empty-string) fields leave the document untouched. -/
def updFields (slot : Slot) (r : UpdateReq) : Slot :=
  let s1 :=
    match r.date with
    | some (DateInput.val d) => { slot with date := normalizeDate d }
    | _ => slot
  let s2 :=
    match r.startTime with
    | some t => if t = "" then s1 else { s1 with startTime := convertTo12Hour t }
    | none => s1
  let s3 :=
    match r.endTime with
    | some t => if t = "" then s2 else { s2 with endTime := convertTo12Hour t }
    | none => s2
  match r.purpose with
  | some p => if p = "" then s3 else { s3 with purpose := jsTrim p }
  | none => s3

/-- Embedding of the `router.put('/:id')` update handler: 404 when the
slot is absent; the truthy body fields are applied by `updFields`;
`save` re-runs validation (500 on a validation error). -/
def updateSlot (store : Store) (id : Nat) (r : UpdateReq) : HResult :=
  match findById store id with
  | none => ⟨404, store, none, [Access.slotFind id]⟩
  | some slot =>
    let s4 := updFields slot r
    if validateSlot s4 then
      ⟨200, setById store id s4, some s4,
        [Access.slotFind id, Access.slotSave id, Access.slotFind id]⟩
    else
      ⟨500, store, none, [Access.slotFind id]⟩

/-- The assignments of the book handler:

    slot.status = 'booked';
    slot.bookedBy = { name, email, enrollment, bookedAt: Date.now() };

with the schema's trim applied to the `bookedBy` string sub-fields on
assignment. -/
def bookedSlot (slot : Slot) (r : BookReq) (now : Int) : Slot :=
  { slot with
    status := Status.booked,
    bookedBy := some
      ⟨jsTrim (r.name.getD ""), jsTrim (r.enrollment.getD ""),
        jsTrim (r.email.getD ""), now⟩ }

/-- The assignments of the cancel handler:

    slot.status = 'available';
    slot.bookedBy = null;
-/
def cancelledSlot (slot : Slot) : Slot :=
  { slot with status := Status.available, bookedBy := none }

/-- Embedding of the `router.post('/:id/book')` handler: 400 when any
of `name`, `email`, `enrollment` is falsy; 404 when the slot is
absent; 400 when the slot is not `available`; otherwise set the status
to `booked` and populate `bookedBy` (sub-fields trimmed by the schema)
with `Date.now()` as `bookedAt`. -/
def bookSlot (store : Store) (id : Nat) (now : Int) (r : BookReq) : HResult :=
  if !(truthyStr r.name && truthyStr r.email && truthyStr r.enrollment) then
    ⟨400, store, none, []⟩
  else
    match findById store id with
    | none => ⟨404, store, none, [Access.slotFind id]⟩
    | some slot =>
      if !(slot.status == Status.available) then
        ⟨400, store, none, [Access.slotFind id]⟩
      else
        let slot' := bookedSlot slot r now
        if validateSlot slot' then
          ⟨200, setById store id slot', some slot',
            [Access.slotFind id, Access.slotSave id, Access.slotFind id]⟩
        else
          ⟨500, store, none, [Access.slotFind id]⟩

/-- Embedding of the `router.put('/:id/cancel')` handler: 404 when the
slot is absent; 400 when the slot is not `booked`; otherwise reset the
status to `available` and clear `bookedBy` (`slot.bookedBy = null`). -/
def cancelSlot (store : Store) (id : Nat) : HResult :=
  match findById store id with
  | none => ⟨404, store, none, [Access.slotFind id]⟩
  | some slot =>
    if !(slot.status == Status.booked) then
      ⟨400, store, none, [Access.slotFind id]⟩
    else
      let slot' := cancelledSlot slot
      if validateSlot slot' then
        ⟨200, setById store id slot', some slot',
          [Access.slotFind id, Access.slotSave id, Access.slotFind id]⟩
      else
        ⟨500, store, none, [Access.slotFind id]⟩

/-- One invocation of a mutating public operation of the slot service. -/
inductive Op where
  | create (events : List String) (freshId : Nat) (adminId : String) (r : CreateReq)
  | update (id : Nat) (r : UpdateReq)
  | book (id : Nat) (now : Int) (r : BookReq)
  | cancel (id : Nat)
deriving DecidableEq

/-- Apply one operation to a store. -/
def applyOp (store : Store) : Op → HResult
  | Op.create events freshId adminId r => createSlot events store freshId adminId r
  | Op.update id r => updateSlot store id r
  | Op.book id now r => bookSlot store id now r
  | Op.cancel id => cancelSlot store id

/-- Store states reachable from the empty store through the public
operations. -/
inductive Reachable : Store → Prop where
  | nil : Reachable []
  | step (s : Store) (op : Op) : Reachable s → Reachable (applyOp s op).store

/-! Lemmas about the decimal-numeral model. -/

lemma natToCharsAux_append (f : Nat) :
    ∀ n acc, natToCharsAux f n acc = natToCharsAux f n [] ++ acc := by
  induction f with
  | zero => intro n acc; simp [natToCharsAux]
  | succ f ih =>
    intro n acc
    simp only [natToCharsAux]
    by_cases h : n < 10
    · simp [h]
    · simp only [h, if_false]
      rw [ih (n / 10) (Char.ofNat (48 + n % 10) :: acc),
        ih (n / 10) (Char.ofNat (48 + n % 10) :: [])]
      simp

lemma natToCharsAux_fuel :
    ∀ f₁ f₂ n acc, n < 10 ^ f₁ → n < 10 ^ f₂ → 0 < f₁ → 0 < f₂ →
      natToCharsAux f₁ n acc = natToCharsAux f₂ n acc := by
  intro f₁
  induction f₁ with
  | zero => intro f₂ n acc h₁ h₂ hf₁ hf₂; omega
  | succ g ih =>
    intro f₂ n acc h₁ h₂ hf₁ hf₂
    match f₂, hf₂ with
    | k + 1, _ =>
      simp only [natToCharsAux]
      by_cases h : n < 10
      · simp [h]
      · simp only [h, if_false]
        have hg : 0 < g := by
          by_contra hg0
          have : g = 0 := by omega
          subst this
          simp at h₁
          omega
        have hk : 0 < k := by
          by_contra hk0
          have : k = 0 := by omega
          subst this
          simp at h₂
          omega
        have hng : n / 10 < 10 ^ g := by
          have : n < 10 ^ g * 10 := by
            calc n < 10 ^ (g + 1) := h₁
            _ = 10 ^ g * 10 := by ring
          omega
        have hnk : n / 10 < 10 ^ k := by
          have : n < 10 ^ k * 10 := by
            calc n < 10 ^ (k + 1) := h₂
            _ = 10 ^ k * 10 := by ring
          omega
        exact ih k (n / 10) _ hng hnk hg hk

lemma natToChars_small (n : Nat) (h : n < 10) :
    natToChars n = [Char.ofNat (48 + n)] := by
  unfold natToChars
  simp only [natToCharsAux]
  simp [h, Nat.mod_eq_of_lt h]

lemma natToChars_large (n : Nat) (h : 10 ≤ n) :
    natToChars n = natToChars (n / 10) ++ [Char.ofNat (48 + n % 10)] := by
  have h1 : ¬ n < 10 := by omega
  unfold natToChars
  conv_lhs => simp only [natToCharsAux]
  simp only [h1, if_false]
  rw [natToCharsAux_append n (n / 10) (Char.ofNat (48 + n % 10) :: [])]
  have hfuel : natToCharsAux n (n / 10) [] = natToCharsAux (n / 10 + 1) (n / 10) [] := by
    apply natToCharsAux_fuel
    · calc n / 10 ≤ n := Nat.div_le_self n 10
      _ < 10 ^ n := Nat.lt_pow_self (by norm_num) n
    · calc n / 10 < 10 ^ (n / 10) := Nat.lt_pow_self (by norm_num) (n / 10)
      _ ≤ 10 ^ (n / 10 + 1) := Nat.pow_le_pow_right (by norm_num) (by omega)
    · omega
    · omega
  rw [hfuel]

lemma digit_char_isDigit (d : Nat) (hd : d < 10) :
    (Char.ofNat (48 + d)).isDigit = true := by
  interval_cases d <;> decide

lemma digit_char_toNat (d : Nat) (hd : d < 10) :
    (Char.ofNat (48 + d)).toNat = 48 + d := by
  interval_cases d <;> decide

lemma natToChars_digit (n : Nat) : ∀ c ∈ natToChars n, c.isDigit = true := by
  induction n using Nat.strong_induction_on with
  | _ n ih =>
    by_cases h : n < 10
    · rw [natToChars_small n h]
      intro c hc
      simp only [List.mem_singleton] at hc
      subst hc
      exact digit_char_isDigit n h
    · rw [natToChars_large n (by omega)]
      intro c hc
      rcases List.mem_append.mp hc with h1 | h2
      · exact ih (n / 10) (by omega) c h1
      · simp only [List.mem_singleton] at h2
        subst h2
        exact digit_char_isDigit (n % 10) (Nat.mod_lt _ (by norm_num))

lemma natToChars_ne_nil (n : Nat) : natToChars n ≠ [] := by
  by_cases h : n < 10
  · rw [natToChars_small n h]; simp
  · rw [natToChars_large n (by omega)]; simp

lemma natToChars_foldl (n : Nat) :
    ∀ a, List.foldl (fun a c => a * 10 + (c.toNat - 48)) a (natToChars n) =
      a * 10 ^ (natToChars n).length + n := by
  induction n using Nat.strong_induction_on with
  | _ n ih =>
    intro a
    by_cases h : n < 10
    · rw [natToChars_small n h]
      simp [digit_char_toNat n h]
    · rw [natToChars_large n (by omega)]
      rw [List.foldl_append]
      rw [ih (n / 10) (by omega) a]
      simp only [List.foldl_cons, List.foldl_nil, List.length_append,
        List.length_singleton]
      rw [digit_char_toNat (n % 10) (Nat.mod_lt _ (by norm_num))]
      have : 48 + n % 10 - 48 = n % 10 := by omega
      rw [this]
      rw [pow_succ]
      have hmod : n / 10 * 10 + n % 10 = n := by omega
      ring_nf
      omega

/-! Lemmas about the model of `parseInt`. -/

lemma isDigit_ne (c x : Char) (h : c.isDigit = true) (hx : x.isDigit = false) :
    c ≠ x := by
  intro e
  subst e
  rw [h] at hx
  simp at hx

lemma takeWhile_all {p : Char → Bool} :
    ∀ l : List Char, (∀ c ∈ l, p c = true) → l.takeWhile p = l := by
  intro l
  induction l with
  | nil => intro _; rfl
  | cons c cs ih =>
    intro h
    rw [List.takeWhile_cons]
    rw [h c (List.mem_cons_self c cs)]
    simp only [if_true]
    rw [ih (fun x hx => h x (List.mem_cons_of_mem c hx))]

lemma dropWhile_head_false {p : Char → Bool} (c : Char) (cs : List Char)
    (h : p c = false) : (c :: cs).dropWhile p = c :: cs := by
  rw [List.dropWhile_cons, h]
  simp

lemma parseDigits_natToChars (n : Nat) : parseDigits (natToChars n) = some n := by
  unfold parseDigits
  rw [takeWhile_all (natToChars n) (natToChars_digit n)]
  obtain ⟨c, cs, hcons⟩ := List.exists_cons_of_ne_nil (natToChars_ne_nil n)
  rw [hcons]
  have : List.foldl (fun a c => a * 10 + (c.toNat - 48)) 0 (c :: cs) = n := by
    rw [← hcons, natToChars_foldl n 0]
    simp
  simp [this]

lemma parseIntJS_natToChars (n : Nat) : parseIntJS (natToChars n) = some (n : Int) := by
  unfold parseIntJS
  obtain ⟨c, cs, hcons⟩ := List.exists_cons_of_ne_nil (natToChars_ne_nil n)
  have hdig : c.isDigit = true :=
    natToChars_digit n c (by rw [hcons]; exact List.mem_cons_self c cs)
  have hws : isWs c = false := by
    have h0 : c ≠ ' ' := isDigit_ne c ' ' hdig (by decide)
    have h1 : c ≠ '\t' := isDigit_ne c '\t' hdig (by decide)
    have h2 : c ≠ '\n' := isDigit_ne c '\n' hdig (by decide)
    have h3 : c ≠ '\r' := isDigit_ne c '\r' hdig (by decide)
    simp [isWs, h0, h1, h2, h3]
  rw [hcons, dropWhile_head_false c cs hws]
  have h1 : ¬ c = '-' := isDigit_ne c '-' hdig (by decide)
  have h2 : ¬ c = '+' := isDigit_ne c '+' hdig (by decide)
  simp only [h1, h2, if_false]
  rw [← hcons, parseDigits_natToChars n]
  rfl

/-! Lemmas about the model of `split`. -/

lemma splitCh_ne_nil (sep : Char) : ∀ cs, splitCh sep cs ≠ [] := by
  intro cs
  induction cs with
  | nil => simp [splitCh]
  | cons c cs ih =>
    simp only [splitCh]
    by_cases h : c = sep
    · simp [h]
    · simp only [h, if_false]
      match hs : splitCh sep cs with
      | [] => exact absurd hs ih
      | p :: ps => simp

lemma splitCh_no_sep (sep : Char) :
    ∀ cs, sep ∉ cs → splitCh sep cs = [cs] := by
  intro cs
  induction cs with
  | nil => intro _; rfl
  | cons c cs ih =>
    intro h
    have hc : ¬ c = sep := fun e => h (by rw [e]; exact List.mem_cons_self sep cs)
    have hcs : sep ∉ cs := fun e => h (List.mem_cons_of_mem c e)
    simp only [splitCh, hc, if_false]
    rw [ih hcs]

lemma splitCh_append (sep : Char) :
    ∀ a b, sep ∉ a → splitCh sep (a ++ sep :: b) = a :: splitCh sep b := by
  intro a
  induction a with
  | nil =>
    intro b _
    simp [splitCh]
  | cons c cs ih =>
    intro b h
    have hc : ¬ c = sep := fun e => h (by rw [e]; exact List.mem_cons_self sep cs)
    have hcs : sep ∉ cs := fun e => h (List.mem_cons_of_mem c e)
    simp only [List.cons_append, splitCh, hc, if_false, List.append_eq]
    rw [ih b hcs]

/-! Characterization of `convertTo12Hour` on canonical 24-hour input. -/

lemma natToChars_no_colon (n : Nat) : ':' ∉ natToChars n := by
  intro hmem
  have := natToChars_digit n ':' hmem
  simp at this

lemma jsNumToString_ofNat (n : Nat) : jsNumToString (n : Int) = natToChars n := by
  unfold jsNumToString
  rw [if_neg (not_lt.mpr (Int.natCast_nonneg n))]
  rw [Int.toNat_natCast]

/-- On an input consisting of a canonical decimal hour numeral, a colon
and a colon-free remainder (the 'H:MM' shape of the spec), the
conversion yields the `hour % 12` hour (with 0 mapped to 12), the
untouched remainder and the `hour >= 12` meridiem. -/
lemma convertTo12Hour_eq (h : Nat) (m : List Char) (hm : ':' ∉ m) :
    convertTo12Hour (String.mk (natToChars h ++ ':' :: m)) =
      String.mk (natToChars (if h % 12 = 0 then 12 else h % 12) ++ ':' ::
        (m ++ ' ' :: (if 12 ≤ h then ['P', 'M'] else ['A', 'M']))) := by
  have hmod : (h : Int).tmod 12 = ((h % 12 : Nat) : Int) := rfl
  unfold convertTo12Hour
  rw [show (String.mk (natToChars h ++ ':' :: m)).data = natToChars h ++ ':' :: m from rfl]
  rw [splitCh_append ':' (natToChars h) m (natToChars_no_colon h),
    splitCh_no_sep ':' m hm]
  simp only [List.headD_cons, List.drop_succ_cons, List.drop_zero]
  rw [parseIntJS_natToChars h]
  simp only [hmod]
  have e1 : ((12 : Int) ≤ (h : Int)) ↔ 12 ≤ h := by exact_mod_cast Iff.rfl
  have e12 : jsNumToString 12 = natToChars 12 := by decide
  have hif : jsNumToString (if ((h % 12 : Nat) : Int) = 0 then 12 else ((h % 12 : Nat) : Int)) =
      natToChars (if h % 12 = 0 then 12 else h % 12) := by
    by_cases h0 : h % 12 = 0
    · rw [if_pos (show ((h % 12 : Nat) : Int) = 0 by exact_mod_cast h0), if_pos h0, e12]
    · rw [if_neg (show ¬ ((h % 12 : Nat) : Int) = 0 by exact_mod_cast h0), if_neg h0,
        jsNumToString_ofNat]
  have hper : (if (12 : Int) ≤ (h : Int) then ['P', 'M'] else ['A', 'M']) =
      (if 12 ≤ h then ['P', 'M'] else ['A', 'M']) := by
    by_cases h12 : 12 ≤ h
    · rw [if_pos (e1.mpr h12), if_pos h12]
    · rw [if_neg (fun hh => h12 (e1.mp hh)), if_neg h12]
  rw [hif, hper]

lemma mk_append_str (a : List Char) (s : String) :
    String.mk a ++ s = String.mk (a ++ s.data) := rfl

/-- C1: `convertTo12Hour` implements exactly the specified algorithm:
on every input of the form `H:MM` (a decimal 24-hour hour, a colon, a
colon-free remainder) it emits `PM` when `hour >= 12` and `AM`
otherwise, maps the hour through `hour % 12` with `0` replaced by `12`,
and passes the minutes through unchanged; in particular
`convertTo12Hour "14:30" = "2:30 PM"` and
`convertTo12Hour "15:00" = "3:00 PM"`. -/
theorem convertTo12Hour_algorithm :
    (∀ (h : Nat) (m : List Char), h ≤ 23 → ':' ∉ m →
      convertTo12Hour (String.mk (natToChars h ++ ':' :: m)) =
        String.mk (natToChars (if h % 12 = 0 then 12 else h % 12) ++ ':' ::
          (m ++ ' ' :: (if 12 ≤ h then ['P', 'M'] else ['A', 'M'])))) ∧
    convertTo12Hour "14:30" = "2:30 PM" ∧ convertTo12Hour "15:00" = "3:00 PM" :=
  ⟨fun h m _ hm => convertTo12Hour_eq h m hm, by decide, by decide⟩

/-- Witness for C1 at the concrete input "14:30". -/
theorem convertTo12Hour_algorithm_witness :
    convertTo12Hour (String.mk (natToChars 14 ++ ':' :: "30".data)) =
      String.mk (natToChars (if 14 % 12 = 0 then 12 else 14 % 12) ++ ':' ::
        ("30".data ++ ' ' :: (if 12 ≤ 14 then ['P', 'M'] else ['A', 'M']))) :=
  convertTo12Hour_algorithm.1 14 "30".data (by norm_num) (by decide)

/-- C2 counterexample: `convertTo12Hour` is not idempotent.  The
12-hour string "2:30 PM" (the output of `convertTo12Hour "14:30"`)
matches the 12-hour pattern, yet converting it yields "2:30 PM AM",
so neither `convertTo12Hour t = t` on 12-hour input nor
`convertTo12Hour (convertTo12Hour t) = convertTo12Hour t` holds. -/
theorem convertTo12Hour_not_idempotent :
    match12h "2:30 PM" = true ∧
    convertTo12Hour "2:30 PM" ≠ "2:30 PM" ∧
    convertTo12Hour (convertTo12Hour "14:30") ≠ convertTo12Hour "14:30" :=
  ⟨by decide, by decide, by decide⟩

/-- C2 amended: applying `convertTo12Hour` to its own output garbles it
by appending a second meridiem: for every canonical 24-hour input
`H:MM`, the double conversion equals the single conversion with
" PM" appended when `H % 12 = 0` and " AM" appended otherwise. -/
theorem convertTo12Hour_double (h : Nat) (m : List Char)
    (hh : h ≤ 23) (hm : ':' ∉ m) :
    convertTo12Hour (convertTo12Hour (String.mk (natToChars h ++ ':' :: m))) =
      convertTo12Hour (String.mk (natToChars h ++ ':' :: m)) ++
        (if h % 12 = 0 then " PM" else " AM") := by
  have hP : ':' ∉ (m ++ ' ' :: (if 12 ≤ h then ['P', 'M'] else ['A', 'M'])) := by
    intro hc
    rcases List.mem_append.mp hc with h1 | h2
    · exact hm h1
    · by_cases h12 : 12 ≤ h
      · rw [if_pos h12] at h2
        exact absurd h2 (by decide)
      · rw [if_neg h12] at h2
        exact absurd h2 (by decide)
  rw [convertTo12Hour_eq h m hm]
  rw [convertTo12Hour_eq (if h % 12 = 0 then 12 else h % 12) _ hP]
  by_cases h0 : h % 12 = 0
  · have e : (if h % 12 = 0 then 12 else h % 12) = 12 := if_pos h0
    rw [e, if_pos h0, mk_append_str]
    norm_num
  · have hlt : h % 12 < 12 := Nat.mod_lt _ (by norm_num)
    have e : (if h % 12 = 0 then 12 else h % 12) = h % 12 := if_neg h0
    rw [e, if_neg h0, mk_append_str]
    rw [if_neg (show ¬ h % 12 % 12 = 0 by rw [Nat.mod_eq_of_lt hlt]; exact h0)]
    rw [Nat.mod_eq_of_lt hlt]
    rw [if_neg (show ¬ 12 ≤ h % 12 by omega)]
    simp

/-- Witness for the amended C2 at the concrete input "14:30". -/
theorem convertTo12Hour_double_witness :
    convertTo12Hour (convertTo12Hour (String.mk (natToChars 14 ++ ':' :: "30".data))) =
      convertTo12Hour (String.mk (natToChars 14 ++ ':' :: "30".data)) ++
        (if 14 % 12 = 0 then " PM" else " AM") :=
  convertTo12Hour_double 14 "30".data (by norm_num) (by decide)

/-! Serialization of the stored date. -/

lemma data_mk (l : List Char) : (String.mk l).data = l := rfl

lemma padTo_digits (k n : Nat) : ∀ c ∈ padTo k (natToChars n), c.isDigit = true := by
  intro c hc
  rcases List.mem_append.mp hc with h1 | h2
  · rw [List.eq_of_mem_replicate h1]
    decide
  · exact natToChars_digit n c h2

/-- The date part of `toISOString` before the `T` is exactly the
`YYYY-MM-DD` rendering, so `toJSON` produces it for any time of day. -/
lemma dateToJSON_eq (d : JsDate) : dateToJSON d = ymdString d.year d.month d.day := by
  unfold dateToJSON toISOString ymdString
  rw [data_mk]
  have hL :
      padTo 4 (natToChars d.year) ++ '-' ::
        (padTo 2 (natToChars (d.month + 1)) ++ '-' ::
          (padTo 2 (natToChars d.day) ++ 'T' ::
            (padTo 2 (natToChars (d.msInDay / 3600000)) ++ ':' ::
              (padTo 2 (natToChars (d.msInDay / 60000 % 60)) ++ ':' ::
                (padTo 2 (natToChars (d.msInDay / 1000 % 60)) ++ '.' ::
                  (padTo 3 (natToChars (d.msInDay % 1000)) ++ ['Z'])))))) =
      (padTo 4 (natToChars d.year) ++ '-' ::
        (padTo 2 (natToChars (d.month + 1)) ++ '-' :: padTo 2 (natToChars d.day))) ++
        'T' :: (padTo 2 (natToChars (d.msInDay / 3600000)) ++ ':' ::
          (padTo 2 (natToChars (d.msInDay / 60000 % 60)) ++ ':' ::
            (padTo 2 (natToChars (d.msInDay / 1000 % 60)) ++ '.' ::
              (padTo 3 (natToChars (d.msInDay % 1000)) ++ ['Z'])))) := by
    simp [List.append_assoc]
  have hT : 'T' ∉ padTo 4 (natToChars d.year) ++ '-' ::
      (padTo 2 (natToChars (d.month + 1)) ++ '-' :: padTo 2 (natToChars d.day)) := by
    intro hc
    have hdig : ∀ c ∈ padTo 4 (natToChars d.year) ++ '-' ::
        (padTo 2 (natToChars (d.month + 1)) ++ '-' :: padTo 2 (natToChars d.day)),
        c.isDigit = true ∨ c = '-' := by
      intro c hmem
      rcases List.mem_append.mp hmem with h1 | h2
      · exact Or.inl (padTo_digits 4 d.year c h1)
      · rcases List.mem_cons.mp h2 with h3 | h4
        · exact Or.inr h3
        · rcases List.mem_append.mp h4 with h5 | h6
          · exact Or.inl (padTo_digits 2 (d.month + 1) c h5)
          · rcases List.mem_cons.mp h6 with h7 | h8
            · exact Or.inr h7
            · exact Or.inl (padTo_digits 2 d.day c h8)
    rcases hdig 'T' hc with hdg | hdash
    · simp at hdg
    · exact absurd hdash (by decide)
  rw [hL, splitCh_append 'T' _ _ hT, List.headD_cons]

/-! Structural lemmas about the handlers. -/

lemma validateSlot_parts (s : Slot) (h : validateSlot s = true) :
    match12h s.startTime = true ∧ match12h s.endTime = true ∧ s.purpose ≠ "" := by
  unfold validateSlot at h
  simp only [Bool.and_eq_true, Bool.not_eq_true', beq_eq_false_iff_ne] at h
  exact ⟨h.1.1, h.1.2, h.2⟩

lemma validateSlot_status (s : Slot) (st : Status) (bb : Option BookedBy) :
    validateSlot { s with status := st, bookedBy := bb } = validateSlot s := rfl

lemma mem_setById (store : Store) (id : Nat) (s : Slot) :
    ∀ p ∈ setById store id s, p.snd = s ∨ p ∈ store := by
  intro p hp
  unfold setById at hp
  obtain ⟨q, hq, he⟩ := List.mem_map.mp hp
  by_cases hid : q.fst == id
  · rw [if_pos hid] at he
    left
    rw [← he]
  · rw [if_neg hid] at he
    right
    rw [← he]
    exact hq

/-- Every way the create handler can change the store. -/
lemma createSlot_cases (events : List String) (store : Store) (freshId : Nat)
    (adminId : String) (r : CreateReq) :
    (createSlot events store freshId adminId r).store = store ∨
    ∃ slot, validateSlot slot = true ∧ slot.status = Status.available ∧
      slot.bookedBy = none ∧
      (createSlot events store freshId adminId r).store = store ++ [(freshId, slot)] := by
  simp only [createSlot]
  split_ifs with h1 h2 h3
  · left; rfl
  · left; rfl
  · right
    exact ⟨_, h3, rfl, rfl, rfl⟩
  · left; rfl

/-- The create handler only returns a document it stored after
validation, always with status `available` and no `bookedBy`. -/
lemma createSlot_body (events : List String) (store : Store) (freshId : Nat)
    (adminId : String) (r : CreateReq) (s : Slot)
    (h : (createSlot events store freshId adminId r).body = some s) :
    validateSlot s = true ∧ s.status = Status.available ∧ s.bookedBy = none ∧
    s.date = normalizeDate (dateVal r.date) ∧
    s.startTime = convertTo12Hour (r.startTime.getD "") ∧
    s.endTime = convertTo12Hour (r.endTime.getD "") ∧
    (createSlot events store freshId adminId r).store = store ++ [(freshId, s)] := by
  simp only [createSlot] at h
  split_ifs at h with h1 h2 h3
  all_goals simp at h
  subst h
  refine ⟨h3, rfl, rfl, rfl, rfl, rfl, ?_⟩
  simp only [createSlot]
  rw [if_neg h1, if_neg h2, if_pos h3]

/-- Field-wise description of what an update stores, written from the
spec's words: each supplied truthy field is overwritten with the same
normalization as create, every other field is untouched. -/
def specUpdatedSlot (slot : Slot) (r : UpdateReq) : Slot :=
  ⟨slot.eventId,
    (match r.date with
      | some (DateInput.val d) => normalizeDate d
      | _ => slot.date),
    (match r.startTime with
      | some t => if t = "" then slot.startTime else convertTo12Hour t
      | none => slot.startTime),
    (match r.endTime with
      | some t => if t = "" then slot.endTime else convertTo12Hour t
      | none => slot.endTime),
    (match r.purpose with
      | some p => if p = "" then slot.purpose else jsTrim p
      | none => slot.purpose),
    slot.status, slot.bookedBy, slot.createdBy⟩

/-- The sequential guarded assignments of the handler coincide with the
field-wise description. -/
lemma updFields_eq (slot : Slot) (r : UpdateReq) :
    updFields slot r = specUpdatedSlot slot r := by
  obtain ⟨rd, rst, ret, rp⟩ := r
  obtain ⟨ev, dt, st, et, pu, sta, bb, cb⟩ := slot
  rcases rd with _ | (_ | d) <;> rcases rst with _ | t1 <;>
    rcases ret with _ | t2 <;> rcases rp with _ | t3 <;>
    simp only [updFields, specUpdatedSlot] <;> split_ifs <;> rfl

/-- Reduction of the update handler when the slot is absent. -/
lemma updateSlot_none (store : Store) (id : Nat) (r : UpdateReq)
    (h : findById store id = none) :
    updateSlot store id r = ⟨404, store, none, [Access.slotFind id]⟩ := by
  unfold updateSlot
  rw [h]

/-- Reduction of the update handler when the slot is found. -/
lemma updateSlot_some (store : Store) (id : Nat) (r : UpdateReq) (slot : Slot)
    (h : findById store id = some slot) :
    updateSlot store id r =
      (if validateSlot (updFields slot r) then
        ⟨200, setById store id (updFields slot r), some (updFields slot r),
          [Access.slotFind id, Access.slotSave id, Access.slotFind id]⟩
      else ⟨500, store, none, [Access.slotFind id]⟩) := by
  unfold updateSlot
  rw [h]

/-- Reduction of the book handler when a required field is falsy. -/
lemma bookSlot_guard (store : Store) (id : Nat) (now : Int) (r : BookReq)
    (h : (truthyStr r.name && truthyStr r.email && truthyStr r.enrollment) = false) :
    bookSlot store id now r = ⟨400, store, none, []⟩ := by
  unfold bookSlot
  rw [h]
  rfl

/-- Reduction of the book handler when the fields are present and the
slot is absent. -/
lemma bookSlot_none (store : Store) (id : Nat) (now : Int) (r : BookReq)
    (hg : (truthyStr r.name && truthyStr r.email && truthyStr r.enrollment) = true)
    (h : findById store id = none) :
    bookSlot store id now r = ⟨404, store, none, [Access.slotFind id]⟩ := by
  unfold bookSlot
  rw [hg, h]
  rfl

/-- Reduction of the book handler when the fields are present and the
slot is found. -/
lemma bookSlot_some (store : Store) (id : Nat) (now : Int) (r : BookReq) (slot : Slot)
    (hg : (truthyStr r.name && truthyStr r.email && truthyStr r.enrollment) = true)
    (h : findById store id = some slot) :
    bookSlot store id now r =
      (if !(slot.status == Status.available) then
        ⟨400, store, none, [Access.slotFind id]⟩
      else if validateSlot (bookedSlot slot r now) then
        ⟨200, setById store id (bookedSlot slot r now), some (bookedSlot slot r now),
          [Access.slotFind id, Access.slotSave id, Access.slotFind id]⟩
      else ⟨500, store, none, [Access.slotFind id]⟩) := by
  unfold bookSlot
  rw [hg, h]
  rfl

/-- Reduction of the cancel handler when the slot is absent. -/
lemma cancelSlot_none (store : Store) (id : Nat)
    (h : findById store id = none) :
    cancelSlot store id = ⟨404, store, none, [Access.slotFind id]⟩ := by
  unfold cancelSlot
  rw [h]

/-- Reduction of the cancel handler when the slot is found. -/
lemma cancelSlot_some (store : Store) (id : Nat) (slot : Slot)
    (h : findById store id = some slot) :
    cancelSlot store id =
      (if !(slot.status == Status.booked) then
        ⟨400, store, none, [Access.slotFind id]⟩
      else if validateSlot (cancelledSlot slot) then
        ⟨200, setById store id (cancelledSlot slot), some (cancelledSlot slot),
          [Access.slotFind id, Access.slotSave id, Access.slotFind id]⟩
      else ⟨500, store, none, [Access.slotFind id]⟩) := by
  unfold cancelSlot
  rw [h]

/-- Every way the update handler can change the store. -/
lemma updateSlot_cases (store : Store) (id : Nat) (r : UpdateReq) :
    (updateSlot store id r).store = store ∨
    ∃ slot, findById store id = some slot ∧
      validateSlot (updFields slot r) = true ∧
      (updFields slot r).status = slot.status ∧
      (updFields slot r).bookedBy = slot.bookedBy ∧
      (updateSlot store id r).store = setById store id (updFields slot r) := by
  cases hfind : findById store id with
  | none => rw [updateSlot_none store id r hfind]; left; rfl
  | some slot =>
    rw [updateSlot_some store id r slot hfind]
    by_cases hv : validateSlot (updFields slot r) = true
    · right
      refine ⟨slot, rfl, hv, ?_, ?_, ?_⟩
      · rw [updFields_eq]; rfl
      · rw [updFields_eq]; rfl
      · rw [if_pos hv]
    · left
      rw [if_neg hv]

/-- The update handler only returns a document it stored after
validation. -/
lemma updateSlot_body (store : Store) (id : Nat) (r : UpdateReq) (s : Slot)
    (h : (updateSlot store id r).body = some s) :
    ∃ slot, findById store id = some slot ∧ s = updFields slot r ∧
      validateSlot s = true := by
  cases hfind : findById store id with
  | none => rw [updateSlot_none store id r hfind] at h; simp at h
  | some slot =>
    rw [updateSlot_some store id r slot hfind] at h
    by_cases hv : validateSlot (updFields slot r) = true
    · rw [if_pos hv] at h
      simp at h
      exact ⟨slot, rfl, h.symm, by rw [← h]; exact hv⟩
    · rw [if_neg hv] at h
      simp at h

/-- Every way the book handler can change the store. -/
lemma bookSlot_cases (store : Store) (id : Nat) (now : Int) (r : BookReq) :
    (bookSlot store id now r).store = store ∨
    ∃ slot, findById store id = some slot ∧ slot.status = Status.available ∧
      validateSlot (bookedSlot slot r now) = true ∧
      (bookSlot store id now r).store = setById store id (bookedSlot slot r now) := by
  by_cases hg : (truthyStr r.name && truthyStr r.email && truthyStr r.enrollment) = true
  · cases hfind : findById store id with
    | none => rw [bookSlot_none store id now r hg hfind]; left; rfl
    | some slot =>
      rw [bookSlot_some store id now r slot hg hfind]
      by_cases h2 : (slot.status == Status.available) = true
      · rw [if_neg (by simp [h2])]
        by_cases h3 : validateSlot (bookedSlot slot r now) = true
        · right
          exact ⟨slot, rfl, by simpa using h2, h3, by rw [if_pos h3]⟩
        · left
          rw [if_neg h3]
      · rw [if_pos (by simp_all)]
        left; rfl
  · rw [bookSlot_guard store id now r (by simpa using hg)]
    left; rfl

/-- The book handler only returns a document it stored after
validation: the found slot with status `booked` and a populated
`bookedBy`. -/
lemma bookSlot_body (store : Store) (id : Nat) (now : Int) (r : BookReq) (s : Slot)
    (h : (bookSlot store id now r).body = some s) :
    ∃ slot, findById store id = some slot ∧ slot.status = Status.available ∧
      s = bookedSlot slot r now ∧ validateSlot s = true := by
  by_cases hg : (truthyStr r.name && truthyStr r.email && truthyStr r.enrollment) = true
  · cases hfind : findById store id with
    | none => rw [bookSlot_none store id now r hg hfind] at h; simp at h
    | some slot =>
      rw [bookSlot_some store id now r slot hg hfind] at h
      by_cases h2 : (slot.status == Status.available) = true
      · rw [if_neg (by simp [h2])] at h
        by_cases h3 : validateSlot (bookedSlot slot r now) = true
        · rw [if_pos h3] at h
          simp at h
          exact ⟨slot, rfl, by simpa using h2, h.symm, by rw [← h]; exact h3⟩
        · rw [if_neg h3] at h
          simp at h
      · rw [if_pos (by simp_all)] at h
        simp at h
  · rw [bookSlot_guard store id now r (by simpa using hg)] at h
    simp at h

/-- Every way the cancel handler can change the store. -/
lemma cancelSlot_cases (store : Store) (id : Nat) :
    (cancelSlot store id).store = store ∨
    ∃ slot, findById store id = some slot ∧ slot.status = Status.booked ∧
      validateSlot (cancelledSlot slot) = true ∧
      (cancelSlot store id).store = setById store id (cancelledSlot slot) := by
  cases hfind : findById store id with
  | none => rw [cancelSlot_none store id hfind]; left; rfl
  | some slot =>
    rw [cancelSlot_some store id slot hfind]
    by_cases h2 : (slot.status == Status.booked) = true
    · rw [if_neg (by simp [h2])]
      by_cases h3 : validateSlot (cancelledSlot slot) = true
      · right
        exact ⟨slot, rfl, by simpa using h2, h3, by rw [if_pos h3]⟩
      · left
        rw [if_neg h3]
    · rw [if_pos (by simp_all)]
      left; rfl

/-- The cancel handler only returns a document it stored after
validation: the found slot reset to `available` with `bookedBy`
cleared. -/
lemma cancelSlot_body (store : Store) (id : Nat) (s : Slot)
    (h : (cancelSlot store id).body = some s) :
    ∃ slot, findById store id = some slot ∧ slot.status = Status.booked ∧
      s = cancelledSlot slot ∧ validateSlot s = true := by
  cases hfind : findById store id with
  | none => rw [cancelSlot_none store id hfind] at h; simp at h
  | some slot =>
    rw [cancelSlot_some store id slot hfind] at h
    by_cases h2 : (slot.status == Status.booked) = true
    · rw [if_neg (by simp [h2])] at h
      by_cases h3 : validateSlot (cancelledSlot slot) = true
      · rw [if_pos h3] at h
        simp at h
        exact ⟨slot, rfl, by simpa using h2, h.symm, by rw [← h]; exact h3⟩
      · rw [if_neg h3] at h
        simp at h
    · rw [if_pos (by simp_all)] at h
      simp at h

lemma validateSlot_bookedSlot (slot : Slot) (r : BookReq) (now : Int) :
    validateSlot (bookedSlot slot r now) = validateSlot slot := rfl

lemma validateSlot_cancelledSlot (slot : Slot) :
    validateSlot (cancelledSlot slot) = validateSlot slot := rfl

lemma match12h_nonempty (s : String) (h : match12h s = true) : s ≠ "" := by
  intro he
  rw [he] at h
  exact absurd h (by decide)

/-! The claims about the handlers. -/

/-- C7: a create request in which any of `eventId`, `date`,
`startTime`, `endTime`, `purpose` is missing (falsy) returns 400,
performs no store access at all (empty access trace, so no event
lookup and no slot write), and leaves the store identical. -/
theorem createSlot_missing_field (events : List String) (store : Store)
    (freshId : Nat) (adminId : String) (r : CreateReq)
    (h : truthyStr r.eventId = false ∨ truthyDate r.date = false ∨
      truthyStr r.startTime = false ∨ truthyStr r.endTime = false ∨
      truthyStr r.purpose = false) :
    createSlot events store freshId adminId r = ⟨400, store, none, []⟩ := by
  have hg : (truthyStr r.eventId && truthyDate r.date && truthyStr r.startTime &&
      truthyStr r.endTime && truthyStr r.purpose) = false := by
    rcases h with h | h | h | h | h <;> simp [h]
  unfold createSlot
  rw [hg]
  rfl

/-- Witness for C7: a create request missing its `purpose`. -/
theorem createSlot_missing_field_witness :
    createSlot ["E1"] [] 1 "admin"
      ⟨some "E1", some (DateInput.val ⟨2024, 2, 1, 0⟩), some "14:30", some "15:00", none⟩ =
      ⟨400, [], none, []⟩ :=
  createSlot_missing_field ["E1"] [] 1 "admin" _
    (Or.inr (Or.inr (Or.inr (Or.inr (by decide)))))

/-- C5: the book operation returns 400 when `name`, `email` or
`enrollment` is missing; 404 when the slot is absent; 400 with the
store unchanged when the slot is not `available`; and otherwise stores
and returns the slot with status `booked` and `bookedBy` populated
from the supplied identity (schema-trimmed) and the current
timestamp. -/
theorem bookSlot_spec :
    (∀ (store : Store) (id : Nat) (now : Int) (r : BookReq),
      (truthyStr r.name = false ∨ truthyStr r.email = false ∨
        truthyStr r.enrollment = false) →
      bookSlot store id now r = ⟨400, store, none, []⟩) ∧
    (∀ (store : Store) (id : Nat) (now : Int) (r : BookReq),
      truthyStr r.name = true → truthyStr r.email = true →
      truthyStr r.enrollment = true → findById store id = none →
      bookSlot store id now r = ⟨404, store, none, [Access.slotFind id]⟩) ∧
    (∀ (store : Store) (id : Nat) (now : Int) (r : BookReq) (slot : Slot),
      truthyStr r.name = true → truthyStr r.email = true →
      truthyStr r.enrollment = true → findById store id = some slot →
      slot.status ≠ Status.available →
      bookSlot store id now r = ⟨400, store, none, [Access.slotFind id]⟩) ∧
    (∀ (store : Store) (id : Nat) (now : Int) (r : BookReq) (slot : Slot),
      truthyStr r.name = true → truthyStr r.email = true →
      truthyStr r.enrollment = true → findById store id = some slot →
      slot.status = Status.available → validateSlot slot = true →
      bookSlot store id now r =
        ⟨200, setById store id (bookedSlot slot r now), some (bookedSlot slot r now),
          [Access.slotFind id, Access.slotSave id, Access.slotFind id]⟩) := by
  refine ⟨?_, ?_, ?_, ?_⟩
  · intro store id now r h
    apply bookSlot_guard
    rcases h with h | h | h <;> simp [h]
  · intro store id now r hn he hen hfind
    exact bookSlot_none store id now r (by simp [hn, he, hen]) hfind
  · intro store id now r slot hn he hen hfind hst
    rw [bookSlot_some store id now r slot (by simp [hn, he, hen]) hfind]
    rw [if_pos (by simp [beq_eq_false_iff_ne.mpr hst])]
  · intro store id now r slot hn he hen hfind hst hval
    rw [bookSlot_some store id now r slot (by simp [hn, he, hen]) hfind]
    rw [if_neg (by simp [hst])]
    rw [if_pos (by rw [validateSlot_bookedSlot]; exact hval)]

/-- Witness for C5: booking an available slot in a one-slot store. -/
theorem bookSlot_spec_witness :
    bookSlot [(1, ⟨"E1", ⟨2024, 2, 1, 0⟩, "2:30 PM", "3:00 PM", "Advising",
        Status.available, none, "admin"⟩)] 1 1700000000000
      ⟨some "Alice", some "alice@example.com", some "E42"⟩ =
      ⟨200,
        setById [(1, ⟨"E1", ⟨2024, 2, 1, 0⟩, "2:30 PM", "3:00 PM", "Advising",
          Status.available, none, "admin"⟩)] 1
          (bookedSlot ⟨"E1", ⟨2024, 2, 1, 0⟩, "2:30 PM", "3:00 PM", "Advising",
            Status.available, none, "admin"⟩
            ⟨some "Alice", some "alice@example.com", some "E42"⟩ 1700000000000),
        some (bookedSlot ⟨"E1", ⟨2024, 2, 1, 0⟩, "2:30 PM", "3:00 PM", "Advising",
          Status.available, none, "admin"⟩
          ⟨some "Alice", some "alice@example.com", some "E42"⟩ 1700000000000),
        [Access.slotFind 1, Access.slotSave 1, Access.slotFind 1]⟩ :=
  bookSlot_spec.2.2.2 _ 1 1700000000000 _ _ (by decide) (by decide) (by decide)
    (by decide) (by decide) (by decide)

/-- C6: the cancel operation returns 404 when the slot is absent; 400
with the store unchanged when the slot is not `booked`; and otherwise
stores and returns the slot with status reset to `available` and the
`bookedBy` sub-record cleared entirely. -/
theorem cancelSlot_spec :
    (∀ (store : Store) (id : Nat), findById store id = none →
      cancelSlot store id = ⟨404, store, none, [Access.slotFind id]⟩) ∧
    (∀ (store : Store) (id : Nat) (slot : Slot),
      findById store id = some slot → slot.status ≠ Status.booked →
      cancelSlot store id = ⟨400, store, none, [Access.slotFind id]⟩) ∧
    (∀ (store : Store) (id : Nat) (slot : Slot),
      findById store id = some slot → slot.status = Status.booked →
      validateSlot slot = true →
      cancelSlot store id =
        ⟨200, setById store id (cancelledSlot slot), some (cancelledSlot slot),
          [Access.slotFind id, Access.slotSave id, Access.slotFind id]⟩) := by
  refine ⟨?_, ?_, ?_⟩
  · intro store id hfind
    exact cancelSlot_none store id hfind
  · intro store id slot hfind hst
    rw [cancelSlot_some store id slot hfind]
    rw [if_pos (by simp [beq_eq_false_iff_ne.mpr hst])]
  · intro store id slot hfind hst hval
    rw [cancelSlot_some store id slot hfind]
    rw [if_neg (by simp [hst])]
    rw [if_pos (by rw [validateSlot_cancelledSlot]; exact hval)]

/-- Witness for C6: cancelling a booked slot in a one-slot store. -/
theorem cancelSlot_spec_witness :
    cancelSlot [(1, ⟨"E1", ⟨2024, 2, 1, 0⟩, "2:30 PM", "3:00 PM", "Advising",
        Status.booked, some ⟨"Alice", "E42", "alice@example.com", 1700000000000⟩,
        "admin"⟩)] 1 =
      ⟨200,
        setById [(1, ⟨"E1", ⟨2024, 2, 1, 0⟩, "2:30 PM", "3:00 PM", "Advising",
          Status.booked, some ⟨"Alice", "E42", "alice@example.com", 1700000000000⟩,
          "admin"⟩)] 1
          (cancelledSlot ⟨"E1", ⟨2024, 2, 1, 0⟩, "2:30 PM", "3:00 PM", "Advising",
            Status.booked, some ⟨"Alice", "E42", "alice@example.com", 1700000000000⟩,
            "admin"⟩),
        some (cancelledSlot ⟨"E1", ⟨2024, 2, 1, 0⟩, "2:30 PM", "3:00 PM", "Advising",
          Status.booked, some ⟨"Alice", "E42", "alice@example.com", 1700000000000⟩,
          "admin"⟩),
        [Access.slotFind 1, Access.slotSave 1, Access.slotFind 1]⟩ :=
  cancelSlot_spec.2.2 _ 1 _ (by decide) (by decide) (by decide)

/-- The four guarded assignments leave a request's falsy fields and the
untouched fields (`eventId`, `status`, `bookedBy`, `createdBy`) alone. -/
lemma updFields_id (slot : Slot) (r : UpdateReq)
    (hd : r.date = none ∨ r.date = some DateInput.emptyStr)
    (hs : r.startTime = none ∨ r.startTime = some "")
    (he : r.endTime = none ∨ r.endTime = some "")
    (hp : r.purpose = none ∨ r.purpose = some "") :
    updFields slot r = slot := by
  obtain ⟨rd, rst, ret, rp⟩ := r
  simp only at hd hs he hp
  rcases hd with rfl | rfl <;> rcases hs with rfl | rfl <;>
    rcases he with rfl | rfl <;> rcases hp with rfl | rfl <;> rfl

/-- C9: the update operation returns 404 when the slot is absent, and
otherwise (when the re-validated document is accepted) stores and
returns the document in which every supplied truthy field is
overwritten with the create normalization (`normalizeDate`,
`convertTo12Hour`, the schema's trim for `purpose`) while every
omitted field and `eventId`, `status`, `bookedBy`, `createdBy` are
left unchanged — the final conjunct spells out the field-wise
behaviour of `specUpdatedSlot`. -/
theorem updateSlot_spec :
    (∀ (store : Store) (id : Nat) (r : UpdateReq),
      findById store id = none →
      updateSlot store id r = ⟨404, store, none, [Access.slotFind id]⟩) ∧
    (∀ (store : Store) (id : Nat) (r : UpdateReq) (slot : Slot),
      findById store id = some slot →
      validateSlot (specUpdatedSlot slot r) = true →
      updateSlot store id r =
        ⟨200, setById store id (specUpdatedSlot slot r), some (specUpdatedSlot slot r),
          [Access.slotFind id, Access.slotSave id, Access.slotFind id]⟩) ∧
    (∀ (slot : Slot) (r : UpdateReq),
      (specUpdatedSlot slot r).eventId = slot.eventId ∧
      (specUpdatedSlot slot r).status = slot.status ∧
      (specUpdatedSlot slot r).bookedBy = slot.bookedBy ∧
      (specUpdatedSlot slot r).createdBy = slot.createdBy ∧
      (r.date = none → (specUpdatedSlot slot r).date = slot.date) ∧
      (r.startTime = none → (specUpdatedSlot slot r).startTime = slot.startTime) ∧
      (r.endTime = none → (specUpdatedSlot slot r).endTime = slot.endTime) ∧
      (r.purpose = none → (specUpdatedSlot slot r).purpose = slot.purpose) ∧
      (∀ d, r.date = some (DateInput.val d) →
        (specUpdatedSlot slot r).date = normalizeDate d) ∧
      (∀ t, r.startTime = some t → t ≠ "" →
        (specUpdatedSlot slot r).startTime = convertTo12Hour t) ∧
      (∀ t, r.endTime = some t → t ≠ "" →
        (specUpdatedSlot slot r).endTime = convertTo12Hour t) ∧
      (∀ p, r.purpose = some p → p ≠ "" →
        (specUpdatedSlot slot r).purpose = jsTrim p)) := by
  refine ⟨?_, ?_, ?_⟩
  · intro store id r hfind
    exact updateSlot_none store id r hfind
  · intro store id r slot hfind hval
    rw [updateSlot_some store id r slot hfind, updFields_eq, if_pos hval]
  · intro slot r
    refine ⟨rfl, rfl, rfl, rfl, ?_, ?_, ?_, ?_, ?_, ?_, ?_, ?_⟩
    · intro h; simp [specUpdatedSlot, h]
    · intro h; simp [specUpdatedSlot, h]
    · intro h; simp [specUpdatedSlot, h]
    · intro h; simp [specUpdatedSlot, h]
    · intro d h; simp [specUpdatedSlot, h]
    · intro t h ht; simp [specUpdatedSlot, h, ht]
    · intro t h ht; simp [specUpdatedSlot, h, ht]
    · intro p h hp; simp [specUpdatedSlot, h, hp]

/-- Witness for C9: an update overwriting the times of an existing
slot. -/
theorem updateSlot_spec_witness :
    updateSlot [(1, ⟨"E1", ⟨2024, 2, 1, 0⟩, "2:30 PM", "3:00 PM", "Advising",
        Status.available, none, "admin"⟩)] 1
      ⟨none, some "16:00", some "17:30", none⟩ =
      ⟨200,
        setById [(1, ⟨"E1", ⟨2024, 2, 1, 0⟩, "2:30 PM", "3:00 PM", "Advising",
          Status.available, none, "admin"⟩)] 1
          (specUpdatedSlot ⟨"E1", ⟨2024, 2, 1, 0⟩, "2:30 PM", "3:00 PM", "Advising",
            Status.available, none, "admin"⟩ ⟨none, some "16:00", some "17:30", none⟩),
        some (specUpdatedSlot ⟨"E1", ⟨2024, 2, 1, 0⟩, "2:30 PM", "3:00 PM", "Advising",
          Status.available, none, "admin"⟩ ⟨none, some "16:00", some "17:30", none⟩),
        [Access.slotFind 1, Access.slotSave 1, Access.slotFind 1]⟩ :=
  updateSlot_spec.2.1 _ 1 _ _ (by decide) (by decide)

/-- C10: because the handler guards every field assignment with a
truthiness check, an update supplying the empty string for `date`,
`startTime`, `endTime` or `purpose` behaves exactly as if the field
were omitted: the request is interchangeable with the all-omitted
request, it succeeds on an existing valid slot returning it unchanged,
and no update can ever store an empty `startTime`, `endTime` or
`purpose`. -/
theorem updateSlot_empty_as_omitted :
    (∀ (store : Store) (id : Nat) (r : UpdateReq),
      (r.date = none ∨ r.date = some DateInput.emptyStr) →
      (r.startTime = none ∨ r.startTime = some "") →
      (r.endTime = none ∨ r.endTime = some "") →
      (r.purpose = none ∨ r.purpose = some "") →
      updateSlot store id r = updateSlot store id ⟨none, none, none, none⟩) ∧
    (∀ (store : Store) (id : Nat) (slot : Slot) (r : UpdateReq),
      findById store id = some slot → validateSlot slot = true →
      (r.date = none ∨ r.date = some DateInput.emptyStr) →
      (r.startTime = none ∨ r.startTime = some "") →
      (r.endTime = none ∨ r.endTime = some "") →
      (r.purpose = none ∨ r.purpose = some "") →
      updateSlot store id r = ⟨200, setById store id slot, some slot,
        [Access.slotFind id, Access.slotSave id, Access.slotFind id]⟩) ∧
    (∀ (store : Store) (id : Nat) (r : UpdateReq) (s : Slot),
      (updateSlot store id r).body = some s →
      s.startTime ≠ "" ∧ s.endTime ≠ "" ∧ s.purpose ≠ "") := by
  refine ⟨?_, ?_, ?_⟩
  · intro store id r hd hs he hp
    cases hfind : findById store id with
    | none => rw [updateSlot_none store id r hfind, updateSlot_none store id _ hfind]
    | some slot =>
      rw [updateSlot_some store id r slot hfind, updateSlot_some store id _ slot hfind]
      rw [updFields_id slot r hd hs he hp,
        updFields_id slot ⟨none, none, none, none⟩ (Or.inl rfl) (Or.inl rfl)
          (Or.inl rfl) (Or.inl rfl)]
  · intro store id slot r hfind hval hd hs he hp
    rw [updateSlot_some store id r slot hfind, updFields_id slot r hd hs he hp,
      if_pos hval]
  · intro store id r s h
    obtain ⟨slot, _, _, hv⟩ := updateSlot_body store id r s h
    obtain ⟨h1, h2, h3⟩ := validateSlot_parts s hv
    exact ⟨match12h_nonempty _ h1, match12h_nonempty _ h2, h3⟩

/-- Witness for C10: an update supplying only empty strings succeeds
and stores the slot unchanged. -/
theorem updateSlot_empty_as_omitted_witness :
    updateSlot [(1, ⟨"E1", ⟨2024, 2, 1, 0⟩, "2:30 PM", "3:00 PM", "Advising",
        Status.available, none, "admin"⟩)] 1
      ⟨some DateInput.emptyStr, some "", some "", some ""⟩ =
      ⟨200,
        setById [(1, ⟨"E1", ⟨2024, 2, 1, 0⟩, "2:30 PM", "3:00 PM", "Advising",
          Status.available, none, "admin"⟩)] 1
          ⟨"E1", ⟨2024, 2, 1, 0⟩, "2:30 PM", "3:00 PM", "Advising",
            Status.available, none, "admin"⟩,
        some ⟨"E1", ⟨2024, 2, 1, 0⟩, "2:30 PM", "3:00 PM", "Advising",
          Status.available, none, "admin"⟩,
        [Access.slotFind 1, Access.slotSave 1, Access.slotFind 1]⟩ :=
  updateSlot_empty_as_omitted.2.1 _ 1 _ _ (by decide) (by decide)
    (Or.inr rfl) (Or.inr rfl) (Or.inr rfl) (Or.inr rfl)

/-- C8: for every create that succeeds (and every update supplying a
date that succeeds), the stored date is the input date reconstructed
from only its UTC year, month and day — UTC midnight, with the
time-of-day (`msInDay`) discarded; any timezone offset of the textual
input was already folded into these UTC fields by the parser — and the
externalized slot carries that date serialized as the `YYYY-MM-DD`
string of that UTC calendar day. -/
theorem slot_date_utc :
    (∀ (events : List String) (store : Store) (freshId : Nat) (adminId : String)
      (eid st et p : String) (d : JsDate) (s : Slot),
      (createSlot events store freshId adminId
        ⟨some eid, some (DateInput.val d), some st, some et, some p⟩).body = some s →
      s.date = ⟨d.year, d.month, d.day, 0⟩ ∧
      (createSlot events store freshId adminId
        ⟨some eid, some (DateInput.val d), some st, some et, some p⟩).store =
        store ++ [(freshId, s)] ∧
      dateToJSON s.date = ymdString d.year d.month d.day) ∧
    (∀ (store : Store) (id : Nat) (r : UpdateReq) (d : JsDate) (s : Slot),
      r.date = some (DateInput.val d) →
      (updateSlot store id r).body = some s →
      s.date = ⟨d.year, d.month, d.day, 0⟩ ∧
      (updateSlot store id r).store = setById store id s ∧
      dateToJSON s.date = ymdString d.year d.month d.day) := by
  constructor
  · intro events store freshId adminId eid st et p d s h
    obtain ⟨_, _, _, hdate, _, _, hstore⟩ :=
      createSlot_body events store freshId adminId _ s h
    have hd : s.date = ⟨d.year, d.month, d.day, 0⟩ := hdate
    exact ⟨hd, hstore, by rw [hd, dateToJSON_eq]⟩
  · intro store id r d s hrd h
    obtain ⟨slot, hfind, hs, hv⟩ := updateSlot_body store id r s h
    have hd : s.date = ⟨d.year, d.month, d.day, 0⟩ := by
      rw [hs, updFields_eq]
      simp [specUpdatedSlot, hrd]
      rfl
    refine ⟨hd, ?_, by rw [hd, dateToJSON_eq]⟩
    rw [updateSlot_some store id r slot hfind, hs,
      if_pos (by rw [← hs]; exact hv)]

/-- Witness for C8: a successful create whose input date carries a
nonzero time of day that gets discarded. -/
theorem slot_date_utc_witness :
    (createSlot ["E1"] [] 1 "admin"
      ⟨some "E1", some (DateInput.val ⟨2024, 2, 1, 45296789⟩), some "14:30",
        some "15:00", some "Advising"⟩).body =
      some ⟨"E1", ⟨2024, 2, 1, 0⟩, "2:30 PM", "3:00 PM", "Advising",
        Status.available, none, "admin"⟩ ∧
    dateToJSON (⟨2024, 2, 1, 0⟩ : JsDate) = ymdString 2024 2 1 := by
  constructor
  · decide
  · have h := (slot_date_utc.1 ["E1"] [] 1 "admin" "E1" "14:30" "15:00" "Advising"
      ⟨2024, 2, 1, 45296789⟩
      ⟨"E1", ⟨2024, 2, 1, 0⟩, "2:30 PM", "3:00 PM", "Advising",
        Status.available, none, "admin"⟩ (by decide)).2.2
    simpa using h

/-! Store invariants. -/

/-- Every stored slot's time strings match the 12-hour pattern. -/
abbrev timesOk (store : Store) : Prop :=
  ∀ p ∈ store, match12h (Prod.snd p).startTime = true ∧
    match12h (Prod.snd p).endTime = true

/-- A stored slot's `bookedBy` is populated exactly when its status is
`booked`. -/
abbrev bookedInv (store : Store) : Prop :=
  ∀ p ∈ store, ((Prod.snd p).bookedBy ≠ none ↔ (Prod.snd p).status = Status.booked)

lemma timesOk_setById (store : Store) (id : Nat) (s : Slot) (hok : timesOk store)
    (hv : match12h s.startTime = true ∧ match12h s.endTime = true) :
    timesOk (setById store id s) := by
  intro p hp
  rcases mem_setById store id s p hp with h | h
  · rw [h]; exact hv
  · exact hok p h

lemma timesOk_append (store : Store) (f : Nat) (s : Slot) (hok : timesOk store)
    (hv : match12h s.startTime = true ∧ match12h s.endTime = true) :
    timesOk (store ++ [(f, s)]) := by
  intro p hp
  rcases List.mem_append.mp hp with h | h
  · exact hok p h
  · simp only [List.mem_singleton] at h
    subst h
    exact hv

lemma bookedInv_setById (store : Store) (id : Nat) (s : Slot) (hinv : bookedInv store)
    (hs : s.bookedBy ≠ none ↔ s.status = Status.booked) :
    bookedInv (setById store id s) := by
  intro p hp
  rcases mem_setById store id s p hp with h | h
  · rw [h]; exact hs
  · exact hinv p h

lemma findById_mem (store : Store) (id : Nat) (slot : Slot)
    (h : findById store id = some slot) : ∃ k, (k, slot) ∈ store := by
  unfold findById at h
  cases hf : store.find? (fun p => p.fst == id) with
  | none => rw [hf] at h; simp at h
  | some q =>
    rw [hf] at h
    simp at h
    refine ⟨q.fst, ?_⟩
    have hq := List.mem_of_find?_eq_some hf
    rw [← h]
    simpa using hq

/-- C3: after every operation the stored `startTime`/`endTime` strings
still match the 12-hour pattern `^((1[0-2]|0?[1-9]):([0-5][0-9])
?([AP]M))$` — the schema validation rejects any write that would store
a non-matching string, so the property is preserved by create, update,
book and cancel regardless of what the caller supplied — and every
document an operation returns matches the pattern as well. -/
theorem times_pattern_invariant :
    (∀ (store : Store) (op : Op), timesOk store → timesOk (applyOp store op).store) ∧
    (∀ (store : Store) (op : Op) (s : Slot), (applyOp store op).body = some s →
      match12h s.startTime = true ∧ match12h s.endTime = true) := by
  constructor
  · intro store op hok
    cases op with
    | create events freshId adminId r =>
      simp only [applyOp]
      rcases createSlot_cases events store freshId adminId r with h | ⟨slot, hv, _, _, h⟩
      · rw [h]; exact hok
      · rw [h]
        obtain ⟨h1, h2, _⟩ := validateSlot_parts slot hv
        exact timesOk_append store freshId slot hok ⟨h1, h2⟩
    | update id r =>
      simp only [applyOp]
      rcases updateSlot_cases store id r with h | ⟨slot, _, hv, _, _, h⟩
      · rw [h]; exact hok
      · rw [h]
        obtain ⟨h1, h2, _⟩ := validateSlot_parts _ hv
        exact timesOk_setById store id _ hok ⟨h1, h2⟩
    | book id now r =>
      simp only [applyOp]
      rcases bookSlot_cases store id now r with h | ⟨slot, _, _, hv, h⟩
      · rw [h]; exact hok
      · rw [h]
        obtain ⟨h1, h2, _⟩ := validateSlot_parts _ hv
        exact timesOk_setById store id _ hok ⟨h1, h2⟩
    | cancel id =>
      simp only [applyOp]
      rcases cancelSlot_cases store id with h | ⟨slot, _, _, hv, h⟩
      · rw [h]; exact hok
      · rw [h]
        obtain ⟨h1, h2, _⟩ := validateSlot_parts _ hv
        exact timesOk_setById store id _ hok ⟨h1, h2⟩
  · intro store op s h
    cases op with
    | create events freshId adminId r =>
      simp only [applyOp] at h
      obtain ⟨hv, _⟩ := createSlot_body events store freshId adminId r s h
      obtain ⟨h1, h2, _⟩ := validateSlot_parts s hv
      exact ⟨h1, h2⟩
    | update id r =>
      simp only [applyOp] at h
      obtain ⟨slot, _, _, hv⟩ := updateSlot_body store id r s h
      obtain ⟨h1, h2, _⟩ := validateSlot_parts s hv
      exact ⟨h1, h2⟩
    | book id now r =>
      simp only [applyOp] at h
      obtain ⟨slot, _, _, _, hv⟩ := bookSlot_body store id now r s h
      obtain ⟨h1, h2, _⟩ := validateSlot_parts s hv
      exact ⟨h1, h2⟩
    | cancel id =>
      simp only [applyOp] at h
      obtain ⟨slot, _, _, _, hv⟩ := cancelSlot_body store id s h
      obtain ⟨h1, h2, _⟩ := validateSlot_parts s hv
      exact ⟨h1, h2⟩

/-- Witness for C3: the pattern invariant survives booking the only
slot of a store that satisfies it. -/
theorem times_pattern_invariant_witness :
    timesOk (applyOp [(1, ⟨"E1", ⟨2024, 2, 1, 0⟩, "2:30 PM", "3:00 PM", "Advising",
        Status.available, none, "admin"⟩)]
      (Op.book 1 1700000000000 ⟨some "Alice", some "alice@example.com", some "E42"⟩)).store :=
  times_pattern_invariant.1 _ _ (by decide)

/-- C4: in every store reachable through the public operations,
`bookedBy` is populated if and only if the status is `booked`;
moreover create returns a slot with no `bookedBy` and status
`available`, book returns one with `bookedBy` populated and status
`booked`, and cancel clears the `bookedBy` sub-record entirely while
resetting the status to `available`. -/
theorem bookedBy_iff_booked :
    (∀ store : Store, Reachable store → bookedInv store) ∧
    (∀ (events : List String) (store : Store) (freshId : Nat) (adminId : String)
      (r : CreateReq) (s : Slot),
      (createSlot events store freshId adminId r).body = some s →
      s.bookedBy = none ∧ s.status = Status.available) ∧
    (∀ (store : Store) (id : Nat) (now : Int) (r : BookReq) (s : Slot),
      (bookSlot store id now r).body = some s →
      s.bookedBy ≠ none ∧ s.status = Status.booked) ∧
    (∀ (store : Store) (id : Nat) (s : Slot),
      (cancelSlot store id).body = some s →
      s.bookedBy = none ∧ s.status = Status.available) := by
  refine ⟨?_, ?_, ?_, ?_⟩
  · intro store hreach
    induction hreach with
    | nil => intro p hp; simp at hp
    | step st op _ ih =>
      cases op with
      | create events freshId adminId r =>
        simp only [applyOp]
        rcases createSlot_cases events st freshId adminId r with h | ⟨slot, _, hst, hbb, h⟩
        · rw [h]; exact ih
        · rw [h]
          intro p hp
          rcases List.mem_append.mp hp with hmem | hmem
          · exact ih p hmem
          · simp only [List.mem_singleton] at hmem
            subst hmem
            simp [hst, hbb]
      | update id r =>
        simp only [applyOp]
        rcases updateSlot_cases st id r with h | ⟨slot, hfind, _, hst, hbb, h⟩
        · rw [h]; exact ih
        · rw [h]
          apply bookedInv_setById _ _ _ ih
          obtain ⟨k, hk⟩ := findById_mem st id slot hfind
          rw [hst, hbb]
          exact ih (k, slot) hk
      | book id now r =>
        simp only [applyOp]
        rcases bookSlot_cases st id now r with h | ⟨slot, _, _, _, h⟩
        · rw [h]; exact ih
        · rw [h]
          apply bookedInv_setById _ _ _ ih
          simp [bookedSlot]
      | cancel id =>
        simp only [applyOp]
        rcases cancelSlot_cases st id with h | ⟨slot, _, _, _, h⟩
        · rw [h]; exact ih
        · rw [h]
          apply bookedInv_setById _ _ _ ih
          simp [cancelledSlot]
  · intro events store freshId adminId r s h
    obtain ⟨_, hst, hbb, _⟩ := createSlot_body events store freshId adminId r s h
    exact ⟨hbb, hst⟩
  · intro store id now r s h
    obtain ⟨slot, _, _, hs, _⟩ := bookSlot_body store id now r s h
    subst hs
    simp [bookedSlot]
  · intro store id s h
    obtain ⟨slot, _, _, hs, _⟩ := cancelSlot_body store id s h
    subst hs
    simp [cancelledSlot]

/-- Witness for C4: the invariant holds in the store reached by one
create followed by one book. -/
theorem bookedBy_iff_booked_witness :
    bookedInv (applyOp (applyOp []
      (Op.create ["E1"] 1 "admin"
        ⟨some "E1", some (DateInput.val ⟨2024, 2, 1, 0⟩), some "14:30",
          some "15:00", some "Advising"⟩)).store
      (Op.book 1 1700000000000 ⟨some "Alice", some "alice@example.com", some "E42"⟩)).store :=
  bookedBy_iff_booked.1 _
    (Reachable.step _ _ (Reachable.step [] _ Reachable.nil))

end BookTheSlot
